import Mathlib

/-!
# Alpha Hyperion routing core — verification of spec claims

Shallow embedding of the adaptive-routing core of the `alpha-hyperion`
repository (query classifier, expert registry/candidate ranking, expert
selector, Monte-Carlo performance simulator, supervisor agent, orchestrator
statistics), together with proofs settling the frozen claims C1..C10.

Modelling conventions:
* Python floats are modelled as `ℚ`; `np.clip` is `clipQ`, `np.mean` of a
  list is `listMean` (with the `0`-on-empty convention of rational division).
* Random draws (`np.random.normal`, `np.random.uniform`, the 35% coin flip)
  are universally quantified parameters.
* Python dicts are association lists (`List (k × v)`, insertion order kept,
  `assocSet` for item assignment) or total functions where only lookup of
  known-present keys occurs.
* `deque(maxlen=n)` is a list with `pushCapped n`.
-/

namespace AlphaHyperion

/-- Python `np.clip(x, lo, hi)`. -/
def clipQ (x lo hi : ℚ) : ℚ := max lo (min x hi)

/-- Python `np.mean` of a list (rational division, `0` on the empty list). -/
def listMean (l : List ℚ) : ℚ := l.sum / l.length

/-- Population variance, `np.std(l) ** 2`; comparisons of `np.std` against a
threshold `t` are modelled as variance against `t ^ 2`. -/
def varianceQ (l : List ℚ) : ℚ := listMean (l.map (fun x => (x - listMean l) ^ 2))

/-- Append to a `deque(maxlen=cap)`: the oldest entries beyond `cap` drop. -/
def pushCapped (cap : ℕ) (xs : List α) (x : α) : List α :=
  let ys := xs ++ [x]
  ys.drop (ys.length - cap)

/-- Item assignment `m[k] = v` on a Python dict kept as an association list:
replace the first binding of `k`, or append a new binding. -/
def assocSet (m : List (String × ℚ)) (k : String) (v : ℚ) : List (String × ℚ) :=
  match m with
  | [] => [(k, v)]
  | (k0, v0) :: rest => if k0 = k then (k0, v) :: rest else (k0, v0) :: assocSet rest k v

/-- The `(i, j), i < j` pair traversal `for i, e1 in enumerate(xs): for e2 in xs[i+1:]`. -/
def upperPairs : List α → List (α × α)
  | [] => []
  | x :: xs => (xs.map (fun y => (x, y))) ++ upperPairs xs

/-- The `expert_models.Expert` dataclass (the `Nueva carpeta` dataclass; the flat
`src/hyperion` variant has the same scored fields, no `load`,
`efficiency_score` or `collaboration_history`, which stay at their defaults
when it is modelled). -/
structure Expert where
  id : String
  domain : String
  success_rate : ℚ
  computational_cost : ℚ
  availability : ℚ
  specialization_score : ℚ := 1
  max_load_capacity : ℚ := 10
  recovery_rate : ℚ := 15/100
  efficiency_score : ℚ := 1
  load : ℚ := 0
  fatigue : ℚ := 0
  collaboration_history : List (String × ℚ) := []
deriving DecidableEq

/-- The `expert_models.Task` dataclass. -/
structure Task where
  id : String
  domain_breadth : ℚ
  interdependency : ℚ
  task_scope : ℚ
  required_domains : List String
  priority : ℚ := 1
  query : String := ""
deriving DecidableEq

/-- The derived `Task.complexity = 0.4 * domain_breadth + 0.4 * interdependency + 0.2 * task_scope`. -/
def Task.complexity (t : Task) : ℚ :=
  (4/10) * t.domain_breadth + (4/10) * t.interdependency + (2/10) * t.task_scope

/-- The `SYNERGY_MATRIX_BASE` table (the `Nueva carpeta` dict, keyed by domain tuples). -/
def SYNERGY_MATRIX_BASE : List (List String × ℚ) :=
  [(["mathematics", "programming"], 115/100),
   (["mathematics", "language"], 108/100),
   (["programming", "language"], 110/100),
   (["default"], 105/100)]

/-- Lexicographic code-point comparison of char lists (Python string `<=`). -/
def charListLe : List Char → List Char → Bool
  | [], _ => true
  | _ :: _, [] => false
  | a :: as, b :: bs =>
    if a.toNat < b.toNat then true
    else if b.toNat < a.toNat then false
    else charListLe as bs

/-- Python string `<=` on code points. -/
def strLe (a b : String) : Bool := charListLe a.data b.data

/-- Stable ascending insertion into a code-point-sorted list of strings. -/
def insertStr (s : String) : List String → List String
  | [] => [s]
  | t :: ts => if strLe s t then s :: t :: ts else t :: insertStr s ts

/-- Python `tuple(sorted(domains))` (Python string sort = lexicographic code points). -/
def sortedDomains : List String → List String
  | [] => []
  | x :: xs => insertStr x (sortedDomains xs)

/-- Embeds `e1.collaboration_history.get(e2.id, 1.0)`. -/
def histLookup (e1 e2 : Expert) : ℚ := (e1.collaboration_history.lookup e2.id).getD 1

/-- The static table factor of `MonteCarloEngine._calculate_synergy`:
`SYNERGY_MATRIX_BASE.get(tuple(sorted(domains)), SYNERGY_MATRIX_BASE[('default',)])`. -/
def baseSynergy (experts : List Expert) : ℚ :=
  (SYNERGY_MATRIX_BASE.lookup (sortedDomains (experts.map (·.domain)))).getD (105/100)

/-- Embeds `MonteCarloEngine._calculate_synergy` (`Nueva carpeta/monte_carlo_engine.py`
lines 172-193): the collaboration adjustment accumulator starts at `1.0`,
adds each pairwise history multiplier, and is divided by the pair count. -/
def calculate_synergy (experts : List Expert) : ℚ :=
  if experts.length < 2 then 1
  else
    let base := baseSynergy experts
    let pairs := upperPairs experts
    let collab_adjustment := pairs.foldl (fun acc p => acc + histLookup p.1 p.2) 1
    if 0 < pairs.length then base * (collab_adjustment / pairs.length)
    else base * collab_adjustment

/-- Modelled from the spec wording of claim C1 (for comparison with
`calculate_synergy`): table entry times the arithmetic mean of the pairwise
collaboration-history multipliers over all expert pairs. -/
def synergy_spec_mean (experts : List Expert) : ℚ :=
  if experts.length < 2 then 1
  else
    let pairs := upperPairs experts
    baseSynergy experts * ((pairs.map (fun p => histLookup p.1 p.2)).sum / pairs.length)

/-- Team member used for concrete evaluations: the default mathematics expert. -/
def mathstralNC : Expert :=
  { id := "mathstral:7b", domain := "mathematics", success_rate := 88/100,
    computational_cost := 12/10, availability := 95/100, specialization_score := 15/10,
    max_load_capacity := 16, recovery_rate := 18/100 }

/-- Team member used for concrete evaluations: the default programming expert. -/
def codegemmaNC : Expert :=
  { id := "codegemma:2b", domain := "programming", success_rate := 84/100,
    computational_cost := 8/10, availability := 94/100, specialization_score := 14/10,
    max_load_capacity := 18, recovery_rate := 20/100 }

/-! ## Monte-Carlo engine (`Nueva carpeta/monte_carlo_engine.py`) -/
/-- One entry of `BENCHMARK_DATASETS`. -/
structure Benchmark where
  complexity : ℚ
  domains : List String
  expected_performance : ℚ
  expert_load : ℚ
deriving DecidableEq

/-- The `BENCHMARK_DATASETS` table (the `Nueva carpeta` calibration table). -/
def BENCHMARK_DATASETS : List (String × List Benchmark) :=
  [("mathematics",
     [⟨4/10, ["mathematics"], 88/100, 1⟩,
      ⟨8/10, ["mathematics"], 85/100, 13/10⟩,
      ⟨13/10, ["mathematics", "programming"], 82/100, 2⟩]),
   ("programming",
     [⟨5/10, ["programming"], 84/100, 11/10⟩,
      ⟨9/10, ["programming"], 80/100, 14/10⟩,
      ⟨14/10, ["programming", "language"], 76/100, 22/10⟩]),
   ("language",
     [⟨3/10, ["language"], 82/100, 1⟩,
      ⟨7/10, ["language", "mathematics"], 78/100, 15/10⟩])]

/-- Python `for dataset in BENCHMARK_DATASETS.values(): for benchmark in dataset`
traversal order (Python dicts iterate in insertion order). -/
def allBenchmarks : List Benchmark := (BENCHMARK_DATASETS.map Prod.snd).flatten

/-- One step of the nearest-complexity benchmark scan: state is
`(min_diff, expected_perf)` with `min_diff = none` for `float('inf')`;
replacement only on a strictly smaller distance, as in the source. -/
def benchFoldStep (wanted : Benchmark → Bool) (c : ℚ) (acc : Option ℚ × ℚ) (b : Benchmark) :
    Option ℚ × ℚ :=
  if wanted b then
    match acc.1 with
    | none => (some |c - b.complexity|, b.expected_performance)
    | some d =>
      if |c - b.complexity| < d then (some |c - b.complexity|, b.expected_performance) else acc
  else acc

/-- Benchmark baseline of `_simulate_single_expert` (lines 62-72): nearest
complexity among benchmarks listing the expert's domain, seeded with the
expert's `success_rate`. -/
def expectedPerfSingle (expert : Expert) (task : Task) : ℚ :=
  (allBenchmarks.foldl (benchFoldStep (fun b => b.domains.contains expert.domain) task.complexity)
    (none, expert.success_rate)).2

/-- Benchmark baseline of `_simulate_multi_expert` (lines 107-118): nearest
complexity among benchmarks whose domain set is a subset of the team's
domains, seeded with the mean of the team's success rates. -/
def expectedPerfMulti (experts : List Expert) (task : Task) : ℚ :=
  let teamDomains := experts.map (·.domain)
  (allBenchmarks.foldl
    (benchFoldStep (fun b => b.domains.all (fun d => teamDomains.contains d)) task.complexity)
    (none, listMean (experts.map (·.success_rate)))).2

/-- One trial of `_simulate_single_expert` (lines 75-89); `noise` is the
`np.random.normal(0, 0.06)` draw. -/
def simulate_single_trial (expert : Expert) (task : Task) (expected_perf noise : ℚ) : ℚ :=
  let fatigue_impact := max (88/100) (1 - expert.fatigue / 20)
  let load_impact := max (90/100) (1 / (1 + expert.load * (25/100)))
  let domain_bonus : ℚ := if task.required_domains.contains expert.domain then 108/100 else 1
  let specialization_bonus := 1 + (expert.specialization_score - 1) * (15/100)
  clipQ (expected_perf * fatigue_impact * load_impact * domain_bonus * specialization_bonus
    + noise) (45/100) (92/100)

/-- The `mean_performance` of `_simulate_single_expert`: `np.mean` over the
clipped trial results, one trial per noise draw. -/
def simulate_single_mean (expert : Expert) (task : Task) (noises : List ℚ) : ℚ :=
  listMean (noises.map (simulate_single_trial expert task (expectedPerfSingle expert task)))

/-- The random draws of one `_simulate_multi_expert` trial: one Gaussian noise
per expert, the 35% exceptional-performance coin with its uniform factor in
`[0.95, 1.05]`, and the uniform minimum-improvement factor in `[1.03, 1.08]`. -/
structure MultiTrialRand where
  noises : List ℚ
  exceptional : Bool
  exceptional_factor : ℚ
  floor_factor : ℚ

/-- Embeds `MonteCarloEngine._calculate_load_balance` (lines 195-201). -/
def calculate_load_balance (experts : List Expert) : ℚ :=
  let avg_load := listMean (experts.map (·.load))
  let avg_fatigue := listMean (experts.map (·.fatigue))
  clipQ (1 / (1 + avg_load * (6/10) + (5/100) * avg_fatigue)) (75/100) 1

/-- One expert's individual simulated performance inside a multi-expert trial
(lines 124-134). -/
def multi_individual (expert : Expert) (task : Task) (expected_perf noise : ℚ) : ℚ :=
  let fatigue_impact := max (90/100) (1 - expert.fatigue / 22)
  let load_impact := max (92/100) (1 / (1 + expert.load * (20/100)))
  let domain_bonus : ℚ := if task.required_domains.contains expert.domain then 110/100 else 1
  clipQ (expected_perf * fatigue_impact * load_impact * domain_bonus + noise) (55/100) (95/100)

/-- One trial of `_simulate_multi_expert` (lines 121-161). -/
def simulate_multi_trial (experts : List Expert) (task : Task) (expected_perf synergy : ℚ)
    (r : MultiTrialRand) : ℚ :=
  let individual_perfs := (experts.zip r.noises).map
    (fun p => multi_individual p.1 task expected_perf p.2)
  let avg_individual := listMean individual_perfs
  let collab_bonus := (synergy - 1) * (16/10)
  let communication_overhead := max (98/100) (1 - ((experts.length : ℚ) - 1) * (4/1000))
  let unique_domains := (experts.map (·.domain)).dedup.length
  let diversity_bonus : ℚ := if 1 < unique_domains then (10/100) * ((unique_domains : ℚ) - 1) else 0
  let load_balance := calculate_load_balance experts
  let collab_perf := avg_individual * (1 + collab_bonus + diversity_bonus) *
    communication_overhead * load_balance
  let collab_perf := if r.exceptional then collab_perf * r.exceptional_factor else collab_perf
  let min_expected := avg_individual * r.floor_factor
  clipQ (max min_expected collab_perf) (55/100) (95/100)

/-- The `mean_performance` of `_simulate_multi_expert`: `np.mean` over the clipped
trial results. -/
def simulate_multi_mean (experts : List Expert) (task : Task) (rands : List MultiTrialRand) : ℚ :=
  listMean (rands.map
    (simulate_multi_trial experts task (expectedPerfMulti experts task) (calculate_synergy experts)))

/-- Embeds `MonteCarloEngine._calculate_optimal_simulations` (lines 43-49):
`int(...)` is `Int.floor` (all clamped values of interest are nonnegative). -/
def calculate_optimal_simulations (min_simulations max_simulations : ℕ) (task : Task)
    (team : ℕ) : ℤ :=
  let optimal : ℤ :=
    Int.floor ((80 : ℚ) * min (14/10) (task.complexity / (7/10)) * (1 + ((team : ℚ) - 1) * (8/100)))
  max (min_simulations : ℤ) (min (max_simulations : ℤ) optimal)

/-- Task used for concrete evaluations. -/
def task0 : Task :=
  { id := "t0", domain_breadth := 9/10, interdependency := 9/10, task_scope := 9/10,
    required_domains := ["mathematics", "programming"] }

/-! ## Intelligent router (`hyperion/intelligent_router.py`) -/
/-- The performance-memory dict key
`f"{expert_id}_{'_'.join(sorted(domains))}"`. -/
def memKey (expert_id : String) (domains : List String) : String :=
  expert_id ++ "_" ++ String.intercalate "_" (sortedDomains domains)

/-- Python `np.linspace(0.5, 1.0, n)`. -/
def linspaceWeights : ℕ → List ℚ
  | 0 => []
  | 1 => [1/2]
  | (n+2) => (List.range (n+2)).map (fun i => 1/2 + (1/2) * (i : ℚ) / (((n : ℚ) + 2) - 1))

/-- Embeds `IntelligentRouter._get_recent_performance` (lines 89-100): weighted
average of the stored window with linearly rising weights, `0.0` without
history. -/
def get_recent_performance (mem : List (String × List ℚ)) (expert_id : String)
    (domains : List String) : ℚ :=
  let history := (mem.lookup (memKey expert_id domains)).getD []
  if history = [] then 0
  else
    let w := linspaceWeights history.length
    ((history.zip w).map (fun p => p.1 * p.2)).sum / w.sum

/-- Embeds `IntelligentRouter._calculate_expert_score` (lines 68-87). -/
def calculate_expert_score (mem : List (String × List ℚ)) (expert : Expert) (task : Task) : ℚ :=
  let performance_score := expert.success_rate * expert.specialization_score
  let availability_score := expert.availability * (1 - expert.fatigue / expert.max_load_capacity)
  let domain_bonus : ℚ := if task.required_domains.contains expert.domain then 12/10 else 1
  let load_penalty := 1 / (1 + expert.load * (15/100))
  let recent_perf := get_recent_performance mem expert.id task.required_domains
  let history_bonus := if 0 < recent_perf then 1 + (recent_perf - 75/100) * (1/2) else 1
  performance_score * availability_score * domain_bonus * load_penalty * history_bonus

/-- The ordering of Python `scored_candidates.sort(key=lambda x: x[1],
reverse=True)`: a stable descending sort on the score component, realised by
`List.insertionSort` with this relation. -/
def scoreRel (p q : String × ℚ) : Prop := q.2 ≤ p.2

instance : DecidableRel scoreRel := fun p q => inferInstanceAs (Decidable (q.2 ≤ p.2))

instance : IsTotal (String × ℚ) scoreRel := ⟨fun a b => le_total b.2 a.2⟩

instance : IsTrans (String × ℚ) scoreRel := ⟨fun _ _ _ hab hbc => le_trans hbc hab⟩

/-- Embeds `IntelligentRouter.select_experts` (lines 20-66). The experts dict is a
total map (only registered candidate ids are ever looked up); `fallback_id`
stands for `list(self.experts.keys())[0]` of the empty-candidates branch. -/
def select_experts (experts : String → Expert) (mem : List (String × List ℚ))
    (candidates : List String) (task : Task) (fallback_id : String) : List String :=
  match candidates with
  | [] => [fallback_id]
  | c :: _ =>
    let num_domains := task.required_domains.length
    if num_domains = 1 then [c]
    else if 2 ≤ num_domains then
      if 40/100 < task.complexity then
        let scored_candidates := (candidates.take 3).map
          (fun exp_id => (exp_id, calculate_expert_score mem (experts exp_id) task))
        match scored_candidates.insertionSort scoreRel with
        | [] => []
        | p :: rest =>
          match rest.find? (fun q => !((experts q.1).domain == (experts p.1).domain)) with
          | some q => [p.1, q.1]
          | none => [p.1]
      else [c]
    else [c]

/-- Team member used for concrete evaluations: the default language expert. -/
def gemma2NC : Expert :=
  { id := "gemma2:2b", domain := "language", success_rate := 82/100,
    computational_cost := 7/10, availability := 96/100, specialization_score := 13/10,
    max_load_capacity := 20, recovery_rate := 22/100 }

/-- The `ExpertFactory` roster as a lookup map. -/
def expertsNC : String → Expert := fun id =>
  if id = "mathstral:7b" then mathstralNC
  else if id = "codegemma:2b" then codegemmaNC
  else gemma2NC

/-! ## Supervisor agent (`hyperion/meta_agent.py`) -/
/-- The `mc_results` dict fields read by the supervisor (`observe` fills all
three keys, so the `.get` defaults never fire). -/
structure MCResults where
  mean_performance : ℚ
  std_performance : ℚ
  synergy : ℚ
deriving DecidableEq

/-- The observation record built at the top of `MetaAgent.observe`. -/
structure Observation where
  timestamp : ℚ
  task_id : String
  domains : List String
  complexity : ℚ
  mean_perf : ℚ
  std_perf : ℚ
  synergy : ℚ
  experts : List String
  individual_contributions : Option (List ℚ)
deriving DecidableEq

/-- The corrective actions of `MetaAgent._intervene`; the human-readable
f-strings appended to `interventions` are modelled structurally. -/
inductive InterventionAction where
  | adjust_collaboration (id1 id2 : String) (value : ℚ)
  | boost_specialization (id : String) (oldv newv : ℚ)
  | prioritize (id : String) (fatigue : ℚ)
deriving DecidableEq

/-- Entries of `MetaAgent.intervention_history`. -/
inductive HistoryEntry where
  | success_pattern (domains : List String) (performance synergy time : ℚ)
  | conflict_resolution (task_id : String) (actions : List InterventionAction)
      (performance synergy time : ℚ)
deriving DecidableEq

/-- The mutable state of a `MetaAgent`. -/
structure MetaAgentState where
  observations : List Observation
  reputation : List (String × ℚ)
  intervention_history : List HistoryEntry
  intervention_count : ℕ
  last_intervention_time : ℚ
deriving DecidableEq

/-- Embeds `MetaAgent.__init__`: empty histories, `last_intervention_time = 0`. -/
def initialMetaAgent : MetaAgentState := ⟨[], [], [], 0, 0⟩

/-- Embeds `self.reputation.get(expert.id, 0.5)`. -/
def repGet (m : List (String × ℚ)) (k : String) : ℚ := (m.lookup k).getD (1/2)

/-- The reputation-update loop of `observe` (lines 48-51). -/
def updateReputations (m : List (String × ℚ)) (ids : List String) (mean_perf : ℚ) :
    List (String × ℚ) :=
  ids.foldl
    (fun acc id => assocSet acc id (clipQ (repGet acc id + (mean_perf - 7/10) * (2/10)) 0 1)) m

/-- The observation dict of `observe` (lines 33-43); `now` is `time.time()`. -/
def mkObs (es : List Expert) (task : Task) (mc : MCResults) (contribs : Option (List ℚ))
    (now : ℚ) : Observation :=
  { timestamp := now, task_id := task.id, domains := task.required_domains,
    complexity := task.complexity, mean_perf := mc.mean_performance,
    std_perf := mc.std_performance, synergy := mc.synergy,
    experts := es.map (·.id), individual_contributions := contribs }

/-- Embeds `MetaAgent._detect_conflict` (lines 67-87); the `np.std` comparison on the
contributions is modelled by the equivalent variance comparison, and Python
truthiness of the contributions list requires it to be non-`None` and
non-empty. -/
def detect_conflict (obs : Observation) : Bool :=
  if 6/100 < obs.std_perf then true
  else if obs.synergy < 98/100 ∧ 1 < obs.experts.length then true
  else if obs.mean_perf < 72/100 then true
  else
    match obs.individual_contributions with
    | some l => if l ≠ [] ∧ ((6/100 : ℚ))^2 < varianceQ l then true else false
    | none => false

/-- Placeholder expert for the (unreachable) out-of-range list accesses. -/
def defaultExpert : Expert :=
  { id := "", domain := "", success_rate := 0, computational_cost := 0, availability := 0,
    specialization_score := 0, max_load_capacity := 1, recovery_rate := 0 }

/-- Embeds `e.collaboration_history[k] = v`. -/
def setHist (e : Expert) (k : String) (v : ℚ) : Expert :=
  { e with collaboration_history := assocSet e.collaboration_history k v }

/-- Intervention 1 (lines 106-117): symmetric decay of every pairwise
collaboration multiplier, traversed and mutated in the source's pair order
over list positions. -/
def collabDecay (es : List Expert) : List Expert × List InterventionAction :=
  (upperPairs (List.range es.length)).foldl
    (fun acc p =>
      let e1 := acc.1.getD p.1 defaultExpert
      let e2 := acc.1.getD p.2 defaultExpert
      let current := (e1.collaboration_history.lookup e2.id).getD 1
      let new_collab := clipQ (current - 3/100) (70/100) (112/100)
      let es1 := acc.1.set p.1 (setHist e1 e2.id new_collab)
      let es2 := es1.set p.2 (setHist (es1.getD p.2 defaultExpert) e1.id new_collab)
      (es2, acc.2 ++ [.adjust_collaboration e1.id e2.id new_collab]))
    (es, [])

/-- One iteration of intervention 2, at expert position `i`. -/
def specBoostStep (rep : List (String × ℚ)) (acc : List Expert × List InterventionAction)
    (i : ℕ) : List Expert × List InterventionAction :=
  let e := acc.1.getD i defaultExpert
  if 6/10 < repGet rep e.id then
    (acc.1.set i { e with specialization_score := clipQ (e.specialization_score + 5/100) (7/10) 2 },
     acc.2 ++ [.boost_specialization e.id e.specialization_score
        (clipQ (e.specialization_score + 5/100) (7/10) 2)])
  else acc

/-- Intervention 2 (lines 120-129): raise the specialization of every
involved expert whose reputation exceeds `0.6`. -/
def specBoost (rep : List (String × ℚ)) (es : List Expert) :
    List Expert × List InterventionAction :=
  (List.range es.length).foldl (specBoostStep rep) (es, [])

/-- Strict comparison of Python's `key=lambda x: (x.fatigue, -x.availability)`. -/
def fatigueKeyLt (e1 e2 : Expert) : Bool :=
  if e1.fatigue < e2.fatigue then true
  else if e1.fatigue = e2.fatigue ∧ e2.availability < e1.availability then true
  else false

/-- Position of `min(experts, key=...)` — Python `min` keeps the first
minimal element. -/
def argminFatigue (es : List Expert) : ℕ :=
  (List.range es.length).foldl
    (fun best i =>
      if fatigueKeyLt (es.getD i defaultExpert) (es.getD best defaultExpert) then i else best) 0

/-- Intervention 3 (lines 132-138): boost the availability of the
least-fatigued expert. -/
def redistribute (es : List Expert) : List Expert × InterventionAction :=
  let i := argminFatigue es
  let e := es.getD i defaultExpert
  (es.set i { e with availability := min 1 (e.availability + 3/100) },
   .prioritize e.id e.fatigue)

/-- Embeds `MetaAgent._intervene` (lines 89-149). Note that the cooldown slot —
counter and timestamp — is consumed *before* the three correction conditions
are examined; only the history entry is conditional on some action firing. -/
def intervene (s : MetaAgentState) (es : List Expert) (task : Task) (mc : MCResults)
    (obs : Observation) (now : ℚ) : MetaAgentState × List Expert :=
  if now - s.last_intervention_time < 5 then (s, es)
  else
    let s1 := { s with last_intervention_time := now,
                       intervention_count := s.intervention_count + 1 }
    let r1 := if mc.synergy < 1 ∧ 1 < es.length then collabDecay es else (es, [])
    let r2 := if mc.mean_performance < 78/100 then specBoost s1.reputation r1.1 else (r1.1, [])
    let r3 := if 10/100 < obs.std_perf then
        (let rr := redistribute r2.1; (rr.1, [rr.2]))
      else (r2.1, ([] : List InterventionAction))
    let acts := r1.2 ++ r2.2 ++ r3.2
    if acts = [] then (s1, r3.1)
    else
      let entry := HistoryEntry.conflict_resolution task.id acts mc.mean_performance mc.synergy now
      ({ s1 with intervention_history := pushCapped 200 s1.intervention_history entry }, r3.1)

/-- Embeds `MetaAgent.observe` (lines 30-65): record the observation, update
reputations, then either intervene on a detected conflict or log a passive
success pattern. Returns the new supervisor state and the (possibly
corrected) experts. -/
def observe (s : MetaAgentState) (es : List Expert) (task : Task) (mc : MCResults)
    (contribs : Option (List ℚ)) (now : ℚ) : MetaAgentState × List Expert :=
  let obs := mkObs es task mc contribs now
  let s1 := { s with observations := pushCapped 500 s.observations obs }
  let s2 := { s1 with
    reputation := updateReputations s1.reputation (es.map (·.id)) mc.mean_performance }
  if detect_conflict obs then intervene s2 es task mc obs now
  else if 82/100 < mc.mean_performance ∧ 101/100 < mc.synergy then
    let entry := HistoryEntry.success_pattern task.required_domains mc.mean_performance mc.synergy now
    ({ s2 with intervention_history := pushCapped 200 s2.intervention_history entry }, es)
  else (s2, es)

/-- A simulation outcome that triggers the conflict predicate. -/
def mc4 : MCResults := ⟨6/10, 2/10, 1⟩

/-- All stored reputation values lie in `[0, 1]`. -/
def RepOK (m : List (String × ℚ)) : Prop :=
  ∀ id v, m.lookup id = some v → 0 ≤ v ∧ v ≤ 1

/-- One call to `observe` as recorded for a run of the supervisor. -/
structure ObserveCall where
  experts : List Expert
  task : Task
  mc : MCResults
  contribs : Option (List ℚ)
  now : ℚ

/-- A whole run of the supervisor: fold `observe` over a call sequence,
starting from the freshly constructed agent. -/
def runObserveSeq (calls : List ObserveCall) : MetaAgentState :=
  calls.foldl (fun s c => (observe s c.experts c.task c.mc c.contribs c.now).1) initialMetaAgent

/-- C8 counterexample inputs: a conflict by `std = 0.07 > 0.06`, while
`synergy = 1`, `mean = 0.8 ≥ 0.78` and `std ≤ 0.10` keep all three
corrections inapplicable. -/
def mc8 : MCResults := ⟨8/10, 7/100, 1⟩

/-! ## Fast classifiers (`fast_classifier.py`, both variants) -/
/-- Python `str.lower()` (per-character lowercasing over the code points). -/
def pyLower (s : String) : String := String.mk (s.data.map Char.toLower)

/-- Python `str.strip()`: drop leading and trailing whitespace. -/
def pyStrip (s : String) : String :=
  String.mk (((s.data.dropWhile Char.isWhitespace).reverse.dropWhile Char.isWhitespace).reverse)

/-- The `(domains, complexity, reasoning)` classification triple. -/
structure ClassifyResult where
  domains : List String
  complexity : ℚ
  reasoning : String
deriving DecidableEq

/-- The four keyword/regex detection predicates of the priority-chain
classifier (`alpha_hyperion_v53/fast_classifier.py` lines 39-58), abstracted
as boolean functions of the query — the cache and branch structure under
verification does not depend on their internals. -/
structure DetectorsA where
  is_creative_task : String → Bool
  is_language_task : String → Bool
  is_programming_task : String → Bool
  is_mathematics_task : String → Bool

/-- Python `round(x, 3)` (the tie-breaking mode is irrelevant at the values
produced here, all multiples of `0.1`). -/
def round3 (q : ℚ) : ℚ := (round (q * 1000) : ℤ) / 1000

/-- Embeds `FastPatternClassifier._hash_query`: the md5 hex digest of the lowercased
query, modelled by the lowercased query itself (an injective stand-in). -/
def hash_query (q : String) : String := pyLower q

/-- The uncached body of the priority-chain `classify_fast` (lines 65-105):
mutually exclusive detection branches, each appending exactly one domain,
then the final complexity adjustments. -/
def classifyCoreA (det : DetectorsA) (q : String) : ClassifyResult :=
  let base : ℚ := 3/10
  let r :=
    if det.is_creative_task q then
      (["language"], max base (4/10), "Tarea creativa o literaria")
    else if det.is_language_task q then
      (["language"], max base (4/10), "Consulta de comunicacion o traduccion")
    else if det.is_programming_task q then
      (["programming"], max base (5/10), "Tarea de programacion o desarrollo")
    else if det.is_mathematics_task q then
      (["mathematics"], max base (3/10), "Operacion matematica o calculo numerico")
    else
      (["language"], base, "Consulta general de comunicacion")
  let complexity := if 1 < r.1.length then r.2.1 + 1/10 else r.2.1
  let complexity := if 200 < q.length then complexity + 1/10 else complexity
  { domains := r.1, complexity := round3 complexity, reasoning := r.2.2 }

/-- The priority-chain `classify_fast` (lines 60-107): cache lookup keyed by
the query hash; on a miss the result is stored *unconditionally* — this
variant has no capacity check. -/
def classifyFastA (det : DetectorsA) (cache : List (String × ClassifyResult)) (q : String) :
    ClassifyResult × List (String × ClassifyResult) :=
  let query_hash := hash_query q
  match cache.lookup query_hash with
  | some r => (r, cache)
  | none =>
    let r := classifyCoreA det q
    (r, cache ++ [(query_hash, r)])

/-- Cache state of the `Nueva carpeta` classifier. -/
structure ClassifierBState where
  cache : List (String × ClassifyResult)
  cache_hits : ℕ
  cache_misses : ℕ
deriving DecidableEq

/-- The `Nueva carpeta` `classify_fast` (lines 64-140): key is the
lowercased, stripped query; the scoring body (regex/keyword scoring, lines
78-132) is abstracted as `core`; on a miss the result is cached only while
fewer than 1000 entries are stored. -/
def classifyFastB (core : String → ClassifyResult) (st : ClassifierBState) (q : String) :
    ClassifyResult × ClassifierBState :=
  let cache_key := pyStrip (pyLower q)
  match st.cache.lookup cache_key with
  | some r => (r, { st with cache_hits := st.cache_hits + 1 })
  | none =>
    let r := core q
    let st1 := { st with cache_misses := st.cache_misses + 1 }
    if st1.cache.length < 1000 then
      (r, { st1 with cache := st1.cache ++ [(cache_key, r)] })
    else (r, st1)

/-- Distinct cache keys for building a full cache: `n` repetitions of `a`
(stable under `toLower`/`strip`, so reachable as genuine query keys). -/
def akey (n : ℕ) : String := String.mk (List.replicate n 'a')

/-- A classification result used to populate concrete caches. -/
def dummyRes : ClassifyResult := ⟨["language"], 3/10, "Consulta general de comunicacion"⟩

/-- A concrete 1000-entry cache. -/
def bigCacheA : List (String × ClassifyResult) :=
  (List.range 1000).map (fun n => (akey n, dummyRes))

/-- Detector instance with no keyword ever matching (the default branch). -/
def detNone : DetectorsA := ⟨fun _ => false, fun _ => false, fun _ => false, fun _ => false⟩

/-- Abstract scoring core used to instantiate the `Nueva carpeta` classifier
at witnesses. -/
def coreB0 : String → ClassifyResult := fun _ => dummyRes

/-- Every cached result of the priority-chain classifier has a singleton
domain list. -/
def CacheOKA (cache : List (String × ClassifyResult)) : Prop :=
  ∀ p ∈ cache, (p.2).domains.length = 1

/-! ## Registry candidate ranking (`core_system._get_relevant_experts`) -/
/-- The accumulator loop of `_get_relevant_experts`: one candidate per
required domain via the mapping, skipping falsy ids and duplicates, order
preserved. -/
def mappedGo (mapping : List (String × String)) : List String → List String → List String
  | acc, [] => acc
  | acc, d :: ds =>
    match mapping.lookup d with
    | some expert_id =>
      if expert_id ≠ "" ∧ expert_id ∉ acc then mappedGo mapping (acc ++ [expert_id]) ds
      else mappedGo mapping acc ds
    | none => mappedGo mapping acc ds

/-- The deduplicated candidate list built from the domain mapping. -/
def mappedCandidates (mapping : List (String × String)) (domains : List String) : List String :=
  mappedGo mapping [] domains

/-- The re-sort score of the `Nueva carpeta` `_get_relevant_experts`
(lines 150-151):
`success_rate * specialization_score * availability * (1 - fatigue / max_load_capacity)`. -/
def scoreNC (e : Expert) : ℚ :=
  e.success_rate * e.specialization_score * e.availability *
    (1 - e.fatigue / e.max_load_capacity)

/-- Embeds the `Nueva carpeta/core_system.py` `_get_relevant_experts` (lines 135-161):
mapping-ordered dedup, stable descending re-sort by score when more than one
candidate, fallback to a registered expert when empty. -/
def get_relevant_experts_nc (mapping : List (String × String)) (experts : String → Expert)
    (fallback_id : String) (task : Task) : List String :=
  let relevant := mappedCandidates mapping task.required_domains
  let relevant :=
    if 1 < relevant.length then
      ((relevant.map (fun exp_id => (exp_id, scoreNC (experts exp_id)))).insertionSort
        scoreRel).map Prod.fst
    else relevant
  if relevant = [] then [fallback_id] else relevant

/-- Embeds the `src/hyperion/core_system.py` `_get_relevant_experts` (lines 147-155):
mapping-ordered dedup and fallback only — this variant has no re-sort. -/
def get_relevant_experts_hyp (mapping : List (String × String)) (fallback_id : String)
    (task : Task) : List String :=
  let relevant := mappedCandidates mapping task.required_domains
  if relevant = [] then [fallback_id] else relevant

/-- Embeds `ExpertFactory.get_domain_mapping()`. -/
def domain_mapping : List (String × String) :=
  [("mathematics", "mathstral:7b"), ("programming", "codegemma:2b"), ("language", "gemma2:2b")]

/-- The `src/hyperion` default mathematics expert (same figures as the
`Nueva carpeta` one). -/
def mathstralHyp : Expert := mathstralNC

/-- The `src/hyperion` default programming expert. -/
def codegemmaHyp : Expert :=
  { id := "codegemma:2b", domain := "programming", success_rate := 84/100,
    computational_cost := 6/10, availability := 96/100, specialization_score := 13/10,
    max_load_capacity := 12, recovery_rate := 25/100 }

/-- The `src/hyperion` default language expert. -/
def gemma2Hyp : Expert :=
  { id := "gemma2:2b", domain := "language", success_rate := 82/100,
    computational_cost := 7/10, availability := 97/100, specialization_score := 13/10,
    max_load_capacity := 14, recovery_rate := 22/100 }

/-- The `src/hyperion` roster as a lookup map. -/
def expertsHyp : String → Expert := fun id =>
  if id = "mathstral:7b" then mathstralHyp
  else if id = "codegemma:2b" then codegemmaHyp
  else gemma2Hyp

/-! ## Orchestrator (`core_system.py`) -/
/-- The task built by `route_query` from a classification result. -/
def mkRouteTask (tid : String) (res : ClassifyResult) (q : String) : Task :=
  { id := tid, domain_breadth := res.complexity,
    interdependency := res.complexity * (if 1 < res.domains.length then 11/10 else 1),
    task_scope := res.complexity * (105/100), required_domains := res.domains, query := q }

/-- Embeds `routing_type = 'MULTI' if len(selected_experts) > 1 else 'SINGLE'`. -/
def routingType (selected : List String) : String :=
  if 1 < selected.length then "MULTI" else "SINGLE"

/-- Embeds `AlphaHyperionSystem._is_routing_successful`. -/
def is_routing_successful (experts : String → Expert) (task : Task)
    (selected : List String) : Bool :=
  match selected with
  | [] => false
  | primary :: _ =>
    if task.required_domains = [] then false
    else task.required_domains.contains (experts primary).domain

/-- The success-rate counters of `AlphaHyperionSystem`. -/
structure RoutingStats where
  total_queries : ℕ
  successful_routings : ℕ
deriving DecidableEq

/-- Embeds `AlphaHyperionSystem.get_success_rate`. -/
def get_success_rate (s : RoutingStats) : ℚ :=
  if s.total_queries = 0 then 100
  else ((s.successful_routings : ℚ) / (s.total_queries : ℚ)) * 100

/-- The counter update performed once per `route_query` call. -/
def recordRouting (s : RoutingStats) (success : Bool) : RoutingStats :=
  { total_queries := s.total_queries + 1,
    successful_routings := s.successful_routings + (if success then 1 else 0) }

/-- Counters after a sequence of routed queries, starting from the fresh
system. -/
def runRoutings (outcomes : List Bool) : RoutingStats := outcomes.foldl recordRouting ⟨0, 0⟩

/-- A full bounded-classifier state holding the 1000-entry cache. -/
def bigStateB : ClassifierBState := ⟨bigCacheA, 0, 0⟩

/-- A task with two required domains whose mapping order disagrees with the
descending score order of the default roster. -/
def taskPM : Task :=
  { id := "t", domain_breadth := 0, interdependency := 0, task_scope := 0,
    required_domains := ["programming", "mathematics"] }

/-! ## Theorems settling the claims, with their supporting lemmas and witnesses -/

lemma upperPairs_length : ∀ l : List α, (upperPairs l).length = l.length.choose 2
  | [] => rfl
  | x :: xs => by
    simp [upperPairs, upperPairs_length xs, Nat.choose_succ_succ, Nat.choose_one_right,
      Nat.add_comm]

lemma foldl_add_eq_sum (l : List α) (f : α → ℚ) (a : ℚ) :
    l.foldl (fun acc p => acc + f p) a = a + (l.map f).sum := by
  induction l generalizing a with
  | nil => simp
  | cons x xs ih => simp [ih, add_assoc]

/-- C1 counterexample: for the default mathematics + programming pair with no
collaboration history, the engine returns `1.15 * (1 + 1.0) / 1 = 2.3`,
while the claimed table-entry-times-mean formula gives `1.15 * 1.0 = 1.15`. -/
theorem c1_counterexample :
    calculate_synergy [mathstralNC, codegemmaNC] = 23/10 ∧
    synergy_spec_mean [mathstralNC, codegemmaNC] = 115/100 ∧
    calculate_synergy [mathstralNC, codegemmaNC] ≠
      synergy_spec_mean [mathstralNC, codegemmaNC] := by
  have hs : sortedDomains ["mathematics", "programming"] = ["mathematics", "programming"] := by
    decide
  have h1 : calculate_synergy [mathstralNC, codegemmaNC] = 23/10 := by
    simp [calculate_synergy, baseSynergy, upperPairs, histLookup, mathstralNC, codegemmaNC,
      SYNERGY_MATRIX_BASE, List.lookup, hs]
    norm_num
  have h2 : synergy_spec_mean [mathstralNC, codegemmaNC] = 115/100 := by
    simp [synergy_spec_mean, baseSynergy, upperPairs, histLookup, mathstralNC, codegemmaNC,
      SYNERGY_MATRIX_BASE, List.lookup, hs]
  refine ⟨h1, h2, by rw [h1, h2]; norm_num⟩

/-- C1 (amended): for every multi-expert team, the synergy equals the static
table entry for the sorted domain tuple (default fallback `1.05`) multiplied
by `(1 + the sum of the pairwise collaboration-history multipliers)` divided
by the number of expert pairs — not by the mean of the multipliers alone. -/
theorem c1_amended (experts : List Expert) (h : 2 ≤ experts.length) :
    calculate_synergy experts =
      baseSynergy experts *
        ((1 + ((upperPairs experts).map (fun p => histLookup p.1 p.2)).sum) /
          (experts.length.choose 2 : ℚ)) := by
  have hlen : ¬ experts.length < 2 := by omega
  have hc : 0 < experts.length.choose 2 := Nat.choose_pos (by omega)
  simp only [calculate_synergy, if_neg hlen, foldl_add_eq_sum, upperPairs_length, hc, if_true]

/-- Witness for the amended C1 at a concrete two-expert team. -/
theorem c1_amended_witness :
    calculate_synergy [mathstralNC, codegemmaNC] =
      baseSynergy [mathstralNC, codegemmaNC] *
        ((1 + ((upperPairs [mathstralNC, codegemmaNC]).map
            (fun p => histLookup p.1 p.2)).sum) /
          (([mathstralNC, codegemmaNC] : List Expert).length.choose 2 : ℚ)) :=
  c1_amended [mathstralNC, codegemmaNC] (by decide)

lemma clipQ_mem {a b : ℚ} (x : ℚ) (hab : a ≤ b) : a ≤ clipQ x a b ∧ clipQ x a b ≤ b :=
  ⟨le_max_left a _, max_le hab (min_le_right x b)⟩

lemma sum_le_length_mul {l : List ℚ} {b : ℚ} (h : ∀ x ∈ l, x ≤ b) :
    l.sum ≤ l.length * b := by
  induction l with
  | nil => simp
  | cons x xs ih =>
    have hx := h x (by simp)
    have hxs := ih (fun y hy => h y (by simp [hy]))
    simp only [List.sum_cons, List.length_cons]
    push_cast
    nlinarith

lemma length_mul_le_sum {l : List ℚ} {a : ℚ} (h : ∀ x ∈ l, a ≤ x) :
    l.length * a ≤ l.sum := by
  induction l with
  | nil => simp
  | cons x xs ih =>
    have hx := h x (by simp)
    have hxs := ih (fun y hy => h y (by simp [hy]))
    simp only [List.sum_cons, List.length_cons]
    push_cast
    nlinarith

lemma listMean_mem {l : List ℚ} {a b : ℚ} (hne : l ≠ [])
    (h : ∀ x ∈ l, a ≤ x ∧ x ≤ b) : a ≤ listMean l ∧ listMean l ≤ b := by
  have hn : 0 < (l.length : ℚ) := by
    have := List.length_pos.mpr hne
    exact_mod_cast this
  constructor
  · rw [listMean, le_div_iff₀ hn]
    have := length_mul_le_sum (fun x hx => (h x hx).1)
    linarith
  · rw [listMean, div_le_iff₀ hn]
    have := sum_le_length_mul (fun x hx => (h x hx).2)
    linarith

/-- C2: the engine always runs at least one trial (trial count is clamped
below by `min_simulations`), and the `mean_performance` of each simulation
path lies within that path's clip bounds: `[0.45, 0.92]` for the
single-expert path, `[0.55, 0.95]` for the multi-expert path, whatever the
random draws. -/
theorem c2_mean_within_clip_bounds :
    (∀ (minS maxS : ℕ) (task : Task) (team : ℕ), 1 ≤ minS →
      1 ≤ calculate_optimal_simulations minS maxS task team) ∧
    (∀ (expert : Expert) (task : Task) (noises : List ℚ), noises ≠ [] →
      45/100 ≤ simulate_single_mean expert task noises ∧
        simulate_single_mean expert task noises ≤ 92/100) ∧
    (∀ (experts : List Expert) (task : Task) (rands : List MultiTrialRand), rands ≠ [] →
      55/100 ≤ simulate_multi_mean experts task rands ∧
        simulate_multi_mean experts task rands ≤ 95/100) := by
  refine ⟨?_, ?_, ?_⟩
  · intro minS maxS task team h
    have : (1 : ℤ) ≤ (minS : ℤ) := by exact_mod_cast h
    exact le_trans this (le_max_left _ _)
  · intro expert task noises hne
    apply listMean_mem (by simpa using hne)
    intro x hx
    obtain ⟨n, _, rfl⟩ := List.mem_map.mp hx
    exact clipQ_mem _ (by norm_num)
  · intro experts task rands hne
    apply listMean_mem (by simpa using hne)
    intro x hx
    obtain ⟨r, _, rfl⟩ := List.mem_map.mp hx
    exact clipQ_mem _ (by norm_num)

/-- Witness for C2 at one concrete noise draw per path. -/
theorem c2_witness :
    (1 ≤ calculate_optimal_simulations 60 150 task0 1) ∧
    (45/100 ≤ simulate_single_mean mathstralNC task0 [0] ∧
      simulate_single_mean mathstralNC task0 [0] ≤ 92/100) ∧
    (55/100 ≤ simulate_multi_mean [mathstralNC, codegemmaNC] task0 [⟨[0, 0], false, 1, 1⟩] ∧
      simulate_multi_mean [mathstralNC, codegemmaNC] task0 [⟨[0, 0], false, 1, 1⟩] ≤ 95/100) :=
  ⟨c2_mean_within_clip_bounds.1 60 150 task0 1 (by norm_num),
   c2_mean_within_clip_bounds.2.1 mathstralNC task0 [0] (by simp),
   c2_mean_within_clip_bounds.2.2 [mathstralNC, codegemmaNC] task0 [⟨[0, 0], false, 1, 1⟩]
     (by simp)⟩

/-- C3: for a multi-domain task with complexity above `0.40` and a non-empty
candidate list, `select_experts` returns at most two ids; the primary is the
head of the stable descending sort of the scored candidates (the first three
input candidates) and carries a maximal score among them; when a second id
is returned it is the first entry after the primary, in descending score
order, whose domain differs from the primary's. -/
theorem c3_select_collaboration_pair (experts : String → Expert)
    (mem : List (String × List ℚ)) (candidates : List String) (task : Task)
    (fallback_id : String)
    (hdom : 2 ≤ task.required_domains.length)
    (hcx : 40/100 < task.complexity)
    (hne : candidates ≠ []) :
    ∃ p rest,
      ((candidates.take 3).map
          (fun exp_id => (exp_id, calculate_expert_score mem (experts exp_id) task))).insertionSort
        scoreRel = p :: rest ∧
      (select_experts experts mem candidates task fallback_id).length ≤ 2 ∧
      (select_experts experts mem candidates task fallback_id).head? = some p.1 ∧
      (∀ q ∈ (candidates.take 3).map
          (fun exp_id => (exp_id, calculate_expert_score mem (experts exp_id) task)),
        q.2 ≤ p.2) ∧
      ((select_experts experts mem candidates task fallback_id).length = 2 →
        ∃ q, rest.find? (fun q0 => !((experts q0.1).domain == (experts p.1).domain)) = some q ∧
          select_experts experts mem candidates task fallback_id = [p.1, q.1] ∧
          (experts q.1).domain ≠ (experts p.1).domain ∧ q.2 ≤ p.2) := by
  obtain ⟨c, cs, rfl⟩ := List.exists_cons_of_ne_nil hne
  set scored := ((c :: cs).take 3).map
    (fun exp_id => (exp_id, calculate_expert_score mem (experts exp_id) task)) with hscored
  have hscne : scored ≠ [] := by simp [hscored, List.take_succ_cons]
  have hsortne : scored.insertionSort scoreRel ≠ [] := by
    intro h
    apply hscne
    have := List.length_insertionSort scoreRel scored
    rw [h] at this
    exact List.length_eq_zero.mp this.symm
  obtain ⟨p, rest, hsort⟩ := List.exists_cons_of_ne_nil hsortne
  have hn1 : ¬ task.required_domains.length = 1 := by omega
  have hmax : ∀ q ∈ scored, q.2 ≤ p.2 := by
    intro q hq
    have hmem : q ∈ p :: rest := by
      rw [← hsort]
      exact (List.mem_insertionSort scoreRel).mpr hq
    rcases List.mem_cons.mp hmem with h | h
    · exact le_of_eq (by rw [h])
    · have hsorted := List.sorted_insertionSort scoreRel scored
      rw [hsort] at hsorted
      exact (List.sorted_cons.mp hsorted).1 q h
  have hsel : select_experts experts mem (c :: cs) task fallback_id =
      (match rest.find? (fun q0 => !((experts q0.1).domain == (experts p.1).domain)) with
       | some q => [p.1, q.1]
       | none => [p.1]) := by
    simp only [select_experts, hn1, if_false, if_pos hdom, if_pos hcx, ← hscored, hsort]
  refine ⟨p, rest, hsort, ?_, ?_, hmax, ?_⟩
  · rw [hsel]
    cases rest.find? (fun q0 => !((experts q0.1).domain == (experts p.1).domain)) <;> simp
  · rw [hsel]
    cases rest.find? (fun q0 => !((experts q0.1).domain == (experts p.1).domain)) <;> simp
  · intro hlen2
    cases hfind : rest.find? (fun q0 => !((experts q0.1).domain == (experts p.1).domain)) with
    | none => rw [hsel, hfind] at hlen2; simp at hlen2
    | some q =>
      refine ⟨q, rfl, by rw [hsel, hfind], ?_, ?_⟩
      · have := List.find?_some hfind
        simpa using this
      · have hqmem : q ∈ rest := List.mem_of_find?_eq_some hfind
        have hsorted := List.sorted_insertionSort scoreRel scored
        rw [hsort] at hsorted
        exact (List.sorted_cons.mp hsorted).1 q hqmem

/-- Witness for C3 on the default roster and a concrete two-domain task. -/
theorem c3_witness :
    (select_experts expertsNC [] ["mathstral:7b", "codegemma:2b"] task0 "gemma2:2b").length ≤ 2 := by
  obtain ⟨p, rest, _, h2, _⟩ :=
    c3_select_collaboration_pair expertsNC [] ["mathstral:7b", "codegemma:2b"] task0 "gemma2:2b"
      (by simp [task0]) (by norm_num [Task.complexity, task0]) (by simp)
  exact h2

lemma intervene_skip {s : MetaAgentState} {es task mc obs now}
    (h : now - s.last_intervention_time < 5) :
    intervene s es task mc obs now = (s, es) := by
  simp [intervene, h]

lemma intervene_count_last {s : MetaAgentState} {es task mc obs now}
    (h : ¬ now - s.last_intervention_time < 5) :
    (intervene s es task mc obs now).1.intervention_count = s.intervention_count + 1 ∧
    (intervene s es task mc obs now).1.last_intervention_time = now := by
  simp only [intervene, if_neg h]
  repeat' split
  all_goals exact ⟨rfl, rfl⟩

lemma observe_cooldown_dichotomy (s : MetaAgentState) (es : List Expert) (task : Task)
    (mc : MCResults) (cn : Option (List ℚ)) (now : ℚ) :
    ((observe s es task mc cn now).1.intervention_count = s.intervention_count ∧
     (observe s es task mc cn now).1.last_intervention_time = s.last_intervention_time) ∨
    ((observe s es task mc cn now).1.intervention_count = s.intervention_count + 1 ∧
     (observe s es task mc cn now).1.last_intervention_time = now) := by
  by_cases hd : detect_conflict (mkObs es task mc cn now)
  · by_cases hc : now - s.last_intervention_time < 5
    · left
      simp [observe, hd, intervene, hc]
    · right
      have h := @intervene_count_last { s with
        observations := pushCapped 500 s.observations (mkObs es task mc cn now),
        reputation := updateReputations s.reputation (es.map (·.id)) mc.mean_performance }
        es task mc (mkObs es task mc cn now) now (by simpa using hc)
      simpa [observe, hd] using h
  · left
    by_cases hp : 82/100 < mc.mean_performance ∧ 101/100 < mc.synergy <;>
      simp [observe, hd, hp]

lemma observe_count_le (s : MetaAgentState) (es : List Expert) (task : Task)
    (mc : MCResults) (cn : Option (List ℚ)) (now : ℚ) :
    (observe s es task mc cn now).1.intervention_count ≤ s.intervention_count + 1 := by
  rcases observe_cooldown_dichotomy s es task mc cn now with ⟨h, _⟩ | ⟨h, _⟩ <;> omega

lemma observe_conflict_skip (s : MetaAgentState) {es task mc cn now}
    (hconf : detect_conflict (mkObs es task mc cn now) = true)
    (hlt : now - s.last_intervention_time < 5) :
    (observe s es task mc cn now).1.intervention_count = s.intervention_count ∧
    (observe s es task mc cn now).1.last_intervention_time = s.last_intervention_time ∧
    (observe s es task mc cn now).1.intervention_history = s.intervention_history ∧
    (observe s es task mc cn now).2 = es := by
  simp [observe, hconf, intervene, hlt]

/-- C4: two conflicts observed less than 5 seconds apart trigger at most one
intervention — the intervention counter grows by at most one over the two
calls, and whenever the first call did intervene, the second call's
corrective updates are skipped entirely: counter, timestamp, history and the
expert list all pass through unchanged. -/
theorem c4_cooldown_at_most_one_intervention (s : MetaAgentState)
    (es1 es2 : List Expert) (t1 t2 : Task) (mc1 mc2 : MCResults)
    (cn1 cn2 : Option (List ℚ)) (time1 time2 : ℚ)
    (hgap : time2 - time1 < 5)
    (_hconf1 : detect_conflict (mkObs es1 t1 mc1 cn1 time1) = true)
    (hconf2 : detect_conflict (mkObs es2 t2 mc2 cn2 time2) = true) :
    ((observe (observe s es1 t1 mc1 cn1 time1).1 es2 t2 mc2 cn2 time2).1.intervention_count
        ≤ s.intervention_count + 1) ∧
    ((observe s es1 t1 mc1 cn1 time1).1.intervention_count = s.intervention_count + 1 →
      (observe (observe s es1 t1 mc1 cn1 time1).1 es2 t2 mc2 cn2 time2).1.intervention_count
          = (observe s es1 t1 mc1 cn1 time1).1.intervention_count ∧
      (observe (observe s es1 t1 mc1 cn1 time1).1 es2 t2 mc2 cn2 time2).1.last_intervention_time
          = (observe s es1 t1 mc1 cn1 time1).1.last_intervention_time ∧
      (observe (observe s es1 t1 mc1 cn1 time1).1 es2 t2 mc2 cn2 time2).1.intervention_history
          = (observe s es1 t1 mc1 cn1 time1).1.intervention_history ∧
      (observe (observe s es1 t1 mc1 cn1 time1).1 es2 t2 mc2 cn2 time2).2 = es2) := by
  rcases observe_cooldown_dichotomy s es1 t1 mc1 cn1 time1 with ⟨hc1, _⟩ | ⟨hc1, hl1⟩
  · constructor
    · calc (observe (observe s es1 t1 mc1 cn1 time1).1 es2 t2 mc2 cn2 time2).1.intervention_count
          ≤ (observe s es1 t1 mc1 cn1 time1).1.intervention_count + 1 :=
            observe_count_le _ es2 t2 mc2 cn2 time2
        _ = s.intervention_count + 1 := by omega
    · intro h
      omega
  · have hskip := observe_conflict_skip (observe s es1 t1 mc1 cn1 time1).1 hconf2
      (by rw [hl1]; exact hgap)
    exact ⟨by omega, fun _ => ⟨hskip.1, hskip.2.1, hskip.2.2.1, hskip.2.2.2⟩⟩

/-- Witness for C4: two conflicting observations at times 6 and 8. -/
theorem c4_witness :
    (observe (observe initialMetaAgent [mathstralNC] task0 mc4 none 6).1
        [mathstralNC] task0 mc4 none 8).1.intervention_count
      ≤ initialMetaAgent.intervention_count + 1 :=
  (c4_cooldown_at_most_one_intervention initialMetaAgent [mathstralNC] [mathstralNC]
    task0 task0 mc4 mc4 none none 6 8 (by norm_num)
    (by norm_num [detect_conflict, mkObs, mc4])
    (by norm_num [detect_conflict, mkObs, mc4])).1

lemma lookup_assocSet_self (m : List (String × ℚ)) (k : String) (v : ℚ) :
    (assocSet m k v).lookup k = some v := by
  induction m with
  | nil => simp [assocSet]
  | cons p rest ih =>
    obtain ⟨k0, v0⟩ := p
    by_cases h : k0 = k
    · simp [assocSet, h]
    · have hb : (k == k0) = false := beq_eq_false_iff_ne.mpr (Ne.symm h)
      simp [assocSet, h, List.lookup, hb, ih]

lemma lookup_assocSet_ne (m : List (String × ℚ)) {k k2 : String} (v : ℚ) (h : k2 ≠ k) :
    (assocSet m k v).lookup k2 = m.lookup k2 := by
  have hb : (k2 == k) = false := beq_eq_false_iff_ne.mpr h
  induction m with
  | nil => simp [assocSet, List.lookup, hb]
  | cons p rest ih =>
    obtain ⟨k0, v0⟩ := p
    by_cases h0 : k0 = k
    · subst h0
      simp [assocSet, List.lookup, hb]
    · simp [assocSet, h0, List.lookup, ih]

lemma lookup_assocSet_cases {m : List (String × ℚ)} {k k2 : String} {v w : ℚ}
    (h : (assocSet m k v).lookup k2 = some w) : w = v ∨ m.lookup k2 = some w := by
  by_cases hk : k2 = k
  · subst hk
    rw [lookup_assocSet_self] at h
    exact Or.inl (Option.some_injective _ h).symm
  · rw [lookup_assocSet_ne m v hk] at h
    exact Or.inr h

lemma repOK_assocSet {m : List (String × ℚ)} {k : String} {v : ℚ}
    (h : RepOK m) (hv : 0 ≤ v ∧ v ≤ 1) : RepOK (assocSet m k v) := by
  intro id w hw
  rcases lookup_assocSet_cases hw with rfl | hm
  · exact hv
  · exact h id w hm

lemma updateReputations_cons (m : List (String × ℚ)) (a : String) (as : List String)
    (mp : ℚ) :
    updateReputations m (a :: as) mp =
      updateReputations (assocSet m a (clipQ (repGet m a + (mp - 7/10) * (2/10)) 0 1)) as mp :=
  rfl

lemma updateReputations_RepOK (ids : List String) (mp : ℚ) :
    ∀ m, RepOK m → RepOK (updateReputations m ids mp) := by
  induction ids with
  | nil => intro m h; exact h
  | cons a as ih =>
    intro m h
    rw [updateReputations_cons]
    exact ih _ (repOK_assocSet h (clipQ_mem _ (by norm_num)))

lemma updateReputations_lookup_not_mem {ids : List String} {id : String} (mp : ℚ)
    (h : id ∉ ids) : ∀ m, (updateReputations m ids mp).lookup id = m.lookup id := by
  induction ids with
  | nil => intro m; rfl
  | cons a as ih =>
    intro m
    rw [updateReputations_cons, ih (fun hm => h (List.mem_cons_of_mem a hm)),
      lookup_assocSet_ne _ _ (fun he => h (by rw [he]; exact List.mem_cons_self a as))]

lemma updateReputations_lookup_mem {ids : List String} {id : String} (mp : ℚ)
    (hmem : id ∈ ids) (hnd : ids.Nodup) :
    ∀ m, (updateReputations m ids mp).lookup id =
      some (clipQ (repGet m id + (mp - 7/10) * (2/10)) 0 1) := by
  induction ids with
  | nil => cases hmem
  | cons a as ih =>
    intro m
    obtain ⟨hnotin, hnd2⟩ := List.nodup_cons.mp hnd
    rw [updateReputations_cons]
    by_cases he : id = a
    · subst he
      rw [updateReputations_lookup_not_mem mp hnotin, lookup_assocSet_self]
    · have hmem2 : id ∈ as := by
        rcases List.mem_cons.mp hmem with h | h
        · exact absurd h he
        · exact h
      rw [ih hmem2 hnd2]
      have : repGet (assocSet m a (clipQ (repGet m a + (mp - 7/10) * (2/10)) 0 1)) id
          = repGet m id := by
        unfold repGet
        rw [lookup_assocSet_ne _ _ he]
      rw [this]

lemma intervene_reputation (s : MetaAgentState) (es : List Expert) (task : Task)
    (mc : MCResults) (obs : Observation) (now : ℚ) :
    (intervene s es task mc obs now).1.reputation = s.reputation := by
  simp only [intervene]
  repeat' split
  all_goals rfl

set_option maxRecDepth 4000 in
lemma observe_reputation (s : MetaAgentState) (es : List Expert) (task : Task)
    (mc : MCResults) (cn : Option (List ℚ)) (now : ℚ) :
    (observe s es task mc cn now).1.reputation =
      updateReputations s.reputation (es.map (·.id)) mc.mean_performance := by
  cases hd : detect_conflict (mkObs es task mc cn now) with
  | true =>
    simp only [observe, hd, if_true]
    rw [intervene_reputation]
  | false =>
    simp only [observe, hd, Bool.false_eq_true, if_false]
    split <;> rfl

/-- C5: `observe` sets each involved expert's reputation to
`clip(old + (mean_perf - 0.7) * 0.2, 0, 1)` (old defaulting to `0.5`), and
after any sequence of `observe` calls every stored reputation value lies
within `[0, 1]`. -/
theorem c5_reputation_clip_invariant :
    (∀ (s : MetaAgentState) (es : List Expert) (task : Task) (mc : MCResults)
        (cn : Option (List ℚ)) (now : ℚ) (id : String),
      id ∈ es.map (·.id) → (es.map (·.id)).Nodup →
      (observe s es task mc cn now).1.reputation.lookup id =
        some (clipQ (repGet s.reputation id + (mc.mean_performance - 7/10) * (2/10)) 0 1)) ∧
    (∀ (calls : List ObserveCall) (id : String) (v : ℚ),
      (runObserveSeq calls).reputation.lookup id = some v → 0 ≤ v ∧ v ≤ 1) := by
  constructor
  · intro s es task mc cn now id hmem hnd
    rw [observe_reputation]
    exact updateReputations_lookup_mem _ hmem hnd s.reputation
  · have main : ∀ (calls : List ObserveCall) (s : MetaAgentState), RepOK s.reputation →
        RepOK ((calls.foldl
          (fun s c => (observe s c.experts c.task c.mc c.contribs c.now).1) s).reputation) := by
      intro calls
      induction calls with
      | nil => intro s h; exact h
      | cons c cs ih =>
        intro s h
        apply ih
        rw [observe_reputation]
        exact updateReputations_RepOK _ _ _ h
    intro calls id v hv
    exact main calls initialMetaAgent (fun id v h => by simp [initialMetaAgent] at h) id v hv

/-- Witness for C5: one observe call on the fresh supervisor; the stored value
is the clipped update and lies in `[0, 1]`. -/
theorem c5_witness :
    0 ≤ clipQ (repGet initialMetaAgent.reputation "mathstral:7b" + ((6/10 : ℚ) - 7/10) * (2/10)) 0 1 ∧
    clipQ (repGet initialMetaAgent.reputation "mathstral:7b" + ((6/10 : ℚ) - 7/10) * (2/10)) 0 1 ≤ 1 :=
  c5_reputation_clip_invariant.2 [⟨[mathstralNC], task0, ⟨6/10, 2/10, 1⟩, none, 0⟩]
    "mathstral:7b" _
    (c5_reputation_clip_invariant.1 initialMetaAgent [mathstralNC] task0 ⟨6/10, 2/10, 1⟩ none 0
      "mathstral:7b" (by simp [mathstralNC]) (by simp))

lemma getD_mem_of_lt {es : List Expert} {i : ℕ} (h : i < es.length) :
    es.getD i defaultExpert ∈ es := by
  induction es generalizing i with
  | nil => simp at h
  | cons e t ih =>
    cases i with
    | zero => simp
    | succ n =>
      simp only [List.getD_cons_succ]
      exact List.mem_cons_of_mem _ (ih (by simpa using h))

lemma specBoost_noop {rep : List (String × ℚ)} {es : List Expert}
    (h : ∀ e ∈ es, repGet rep e.id ≤ 6/10) : specBoost rep es = (es, []) := by
  have main : ∀ l : List ℕ, (∀ i ∈ l, i < es.length) →
      l.foldl (specBoostStep rep) (es, []) = (es, []) := by
    intro l
    induction l with
    | nil => intro _; rfl
    | cons i t ih =>
      intro hl
      have hi : i < es.length := hl i (List.mem_cons_self i t)
      have he : es.getD i defaultExpert ∈ es := getD_mem_of_lt hi
      have hcond : ¬ 6/10 < repGet rep (es.getD i defaultExpert).id := not_lt.mpr (h _ he)
      rw [List.foldl_cons]
      have hstep : specBoostStep rep (es, []) i = (es, []) := by
        simp only [specBoostStep, if_neg hcond]
      rw [hstep]
      exact ih (fun j hj => hl j (List.mem_cons_of_mem _ hj))
  exact main (List.range es.length) (fun i hi => List.mem_range.mp hi)

set_option maxRecDepth 8000 in
/-- Core of C8 (shared by the amended theorem and the counterexample): a
conflict after the cooldown with none of the three correction conditions
applicable leaves history and experts unchanged, yet still consumes the
cooldown slot — the counter is incremented and the timestamp set to `now`. -/
lemma observe_conflict_no_corrections (s : MetaAgentState) (es : List Expert) (task : Task)
    (mc : MCResults) (cn : Option (List ℚ)) (now : ℚ)
    (hcool : ¬ now - s.last_intervention_time < 5)
    (hconf : detect_conflict (mkObs es task mc cn now) = true)
    (h1 : ¬ (mc.synergy < 1 ∧ 1 < es.length))
    (h2 : mc.mean_performance < 78/100 →
      ∀ e ∈ es, repGet (updateReputations s.reputation (es.map (·.id)) mc.mean_performance)
        e.id ≤ 6/10)
    (h3 : ¬ (10/100 < mc.std_performance)) :
    (observe s es task mc cn now).1.intervention_history = s.intervention_history ∧
    (observe s es task mc cn now).2 = es ∧
    (observe s es task mc cn now).1.intervention_count = s.intervention_count + 1 ∧
    (observe s es task mc cn now).1.last_intervention_time = now := by
  simp only [observe, hconf, if_true]
  by_cases hm : mc.mean_performance < 78/100
  · have hs := specBoost_noop (h2 hm)
    simp [intervene, mkObs, hcool, h1, h3, hm, hs]
  · simp [intervene, mkObs, hcool, h1, h3, hm]

/-- C8 counterexample: on the fresh supervisor at `now = 10`, a conflict fires
with no applicable correction; the history stays empty and the expert list is
untouched, yet the intervention counter becomes `1` and the last-intervention
timestamp becomes `10` — the cooldown slot is consumed although no correction
fired, contradicting the claim that counter and timestamp stay unchanged. -/
theorem c8_counterexample :
    detect_conflict (mkObs [mathstralNC] task0 mc8 none 10) = true ∧
    (observe initialMetaAgent [mathstralNC] task0 mc8 none 10).1.intervention_history = [] ∧
    (observe initialMetaAgent [mathstralNC] task0 mc8 none 10).2 = [mathstralNC] ∧
    (observe initialMetaAgent [mathstralNC] task0 mc8 none 10).1.intervention_count = 1 ∧
    (observe initialMetaAgent [mathstralNC] task0 mc8 none 10).1.last_intervention_time = 10 := by
  have hconf : detect_conflict (mkObs [mathstralNC] task0 mc8 none 10) = true := by
    norm_num [detect_conflict, mkObs, mc8]
  have h := observe_conflict_no_corrections initialMetaAgent [mathstralNC] task0 mc8 none 10
    (by norm_num [initialMetaAgent]) hconf
    (by norm_num [mc8]) (fun hm => absurd hm (by norm_num [mc8]))
    (by norm_num [mc8])
  refine ⟨hconf, ?_, h.2.1, ?_, h.2.2.2⟩
  · simpa [initialMetaAgent] using h.1
  · simpa [initialMetaAgent] using h.2.2.1

/-- C8 (amended): when a conflict is detected after the cooldown has elapsed
but none of the three correction conditions applies, the intervention
history and the expert parameters remain unchanged, but the intervention
counter is still incremented and the last-intervention timestamp is still
updated — the cooldown slot is consumed even though no correction fired. -/
theorem c8_amended (s : MetaAgentState) (es : List Expert) (task : Task)
    (mc : MCResults) (cn : Option (List ℚ)) (now : ℚ)
    (hcool : ¬ now - s.last_intervention_time < 5)
    (hconf : detect_conflict (mkObs es task mc cn now) = true)
    (h1 : ¬ (mc.synergy < 1 ∧ 1 < es.length))
    (h2 : mc.mean_performance < 78/100 →
      ∀ e ∈ es, repGet (updateReputations s.reputation (es.map (·.id)) mc.mean_performance)
        e.id ≤ 6/10)
    (h3 : ¬ (10/100 < mc.std_performance)) :
    (observe s es task mc cn now).1.intervention_history = s.intervention_history ∧
    (observe s es task mc cn now).2 = es ∧
    (observe s es task mc cn now).1.intervention_count = s.intervention_count + 1 ∧
    (observe s es task mc cn now).1.last_intervention_time = now :=
  observe_conflict_no_corrections s es task mc cn now hcool hconf h1 h2 h3

/-- Witness for the amended C8 at the concrete counterexample input. -/
theorem c8_amended_witness :
    (observe initialMetaAgent [mathstralNC] task0 mc8 none 10).1.intervention_history =
      initialMetaAgent.intervention_history ∧
    (observe initialMetaAgent [mathstralNC] task0 mc8 none 10).2 = [mathstralNC] ∧
    (observe initialMetaAgent [mathstralNC] task0 mc8 none 10).1.intervention_count =
      initialMetaAgent.intervention_count + 1 ∧
    (observe initialMetaAgent [mathstralNC] task0 mc8 none 10).1.last_intervention_time = 10 :=
  c8_amended initialMetaAgent [mathstralNC] task0 mc8 none 10
    (by norm_num [initialMetaAgent])
    (by norm_num [detect_conflict, mkObs, mc8])
    (by norm_num [mc8]) (fun hm => absurd hm (by norm_num [mc8]))
    (by norm_num [mc8])

lemma akey_ne_q (n : ℕ) : akey n ≠ "q" := by
  intro h
  have hd : List.replicate n 'a' = "q".data := by
    have := congrArg String.data h
    simpa [akey] using this
  have hq : "q".data = ['q'] := by decide
  rw [hq] at hd
  have hn : n = 1 := by
    have hlen := congrArg List.length hd
    simpa using hlen
  subst hn
  simp at hd

lemma lookup_bigCacheA : bigCacheA.lookup "q" = none := by
  have main : ∀ l : List ℕ, ((l.map (fun n => (akey n, dummyRes))).lookup "q") = none := by
    intro l
    induction l with
    | nil => rfl
    | cons n t ih =>
      have hb : ("q" == akey n) = false :=
        beq_eq_false_iff_ne.mpr (fun he => akey_ne_q n he.symm)
      simp [List.lookup, hb, ih]
  exact main (List.range 1000)

lemma bigCacheA_length : bigCacheA.length = 1000 := by
  simp [bigCacheA]

/-- C6 counterexample: the priority-chain classifier has no capacity check —
on a (reachable) cache already holding 1000 distinct keys, a call with a new
distinct key still inserts, growing the cache to 1001 entries instead of
leaving it unchanged. -/
theorem c6_counterexample :
    bigCacheA.length = 1000 ∧
    (classifyFastA detNone bigCacheA "q").2.length = 1001 ∧
    (classifyFastA detNone bigCacheA "q").2 ≠ bigCacheA := by
  have hq : hash_query "q" = "q" := by decide
  have heq : (classifyFastA detNone bigCacheA "q").2 =
      bigCacheA ++ [("q", classifyCoreA detNone "q")] := by
    simp only [classifyFastA, hq, lookup_bigCacheA]
  refine ⟨bigCacheA_length, ?_, ?_⟩
  · rw [heq]
    simp [bigCacheA_length]
  · rw [heq]
    intro h
    have := congrArg List.length h
    simp [bigCacheA_length] at this

/-- C6 (amended): the `Nueva carpeta` classifier cache is capacity-bounded at
1000 and non-evicting — a call never pushes the size past 1000, and once the
cache is full a new distinct key is classified but not admitted, leaving the
cache unchanged; the priority-chain variant instead admits every missed key
unconditionally, with no capacity bound. -/
theorem c6_amended :
    (∀ (core : String → ClassifyResult) (st : ClassifierBState) (q : String),
      st.cache.length ≤ 1000 → (classifyFastB core st q).2.cache.length ≤ 1000) ∧
    (∀ (core : String → ClassifyResult) (st : ClassifierBState) (q : String),
      st.cache.length = 1000 → st.cache.lookup (pyStrip (pyLower q)) = none →
      (classifyFastB core st q).2.cache = st.cache ∧ (classifyFastB core st q).1 = core q) ∧
    (∀ (det : DetectorsA) (cache : List (String × ClassifyResult)) (q : String),
      cache.lookup (hash_query q) = none →
      (classifyFastA det cache q).2.length = cache.length + 1) := by
  refine ⟨?_, ?_, ?_⟩
  · intro core st q h
    cases hl : st.cache.lookup (pyStrip (pyLower q)) with
    | some r => simp [classifyFastB, hl]; exact h
    | none =>
      by_cases hlt : st.cache.length < 1000
      · simp only [classifyFastB, hl]
        simp [hlt]
        omega
      · simp only [classifyFastB, hl]
        simp [hlt]
        exact h
  · intro core st q hfull hl
    have hlt : ¬ st.cache.length < 1000 := by omega
    simp only [classifyFastB, hl]
    simp [hlt]
  · intro det cache q hl
    simp [classifyFastA, hl]

set_option maxRecDepth 10000 in
/-- Witness for the amended C6: a full 1000-entry cache with a new key on the
bounded variant, and a miss on the unbounded variant. -/
theorem c6_amended_witness :
    ((classifyFastB coreB0 bigStateB "q").2.cache.length ≤ 1000) ∧
    ((classifyFastB coreB0 bigStateB "q").2.cache = bigCacheA) ∧
    ((classifyFastA detNone [] "q").2.length = 0 + 1) := by
  have hlen : bigStateB.cache.length = 1000 := bigCacheA_length
  have hlk : bigStateB.cache.lookup (pyStrip (pyLower "q")) = none := lookup_bigCacheA
  have h2 := c6_amended.2.1 coreB0 bigStateB "q" hlen hlk
  refine ⟨c6_amended.1 coreB0 bigStateB "q" (le_of_eq hlen), ?_,
    c6_amended.2.2 detNone [] "q" rfl⟩
  exact h2.1

lemma mappedGo_go (mapping : List (String × String)) :
    ∀ (domains acc : List String), ∃ extra,
      mappedGo mapping acc domains = acc ++ extra ∧
      (∀ x ∈ extra, x ∉ acc) ∧ extra.Nodup ∧
      List.Sublist extra (domains.filterMap (fun d => mapping.lookup d)) := by
  intro domains
  induction domains with
  | nil => intro acc; exact ⟨[], by simp [mappedGo]⟩
  | cons d ds ih =>
    intro acc
    cases hm : mapping.lookup d with
    | none =>
      obtain ⟨extra, he, hno, hnd, hsub⟩ := ih acc
      exact ⟨extra, by simp [mappedGo, hm, he], hno, hnd, by simpa [hm] using hsub⟩
    | some expert_id =>
      by_cases hc : expert_id ≠ "" ∧ expert_id ∉ acc
      · obtain ⟨extra, he, hno, hnd, hsub⟩ := ih (acc ++ [expert_id])
        refine ⟨expert_id :: extra, ?_, ?_, ?_, ?_⟩
        · simp only [mappedGo, hm, if_pos hc, he]
          simp
        · intro x hx
          rcases List.mem_cons.mp hx with rfl | hx2
          · exact hc.2
          · intro hxa
            exact hno x hx2 (List.mem_append_left _ hxa)
        · refine List.nodup_cons.mpr ⟨?_, hnd⟩
          intro hin
          exact hno expert_id hin (List.mem_append_right _ (List.mem_singleton_self _))
        · simpa [hm] using List.Sublist.cons₂ expert_id hsub
      · obtain ⟨extra, he, hno, hnd, hsub⟩ := ih acc
        refine ⟨extra, by simp only [mappedGo, hm, if_neg hc]; exact he, hno, hnd, ?_⟩
        simp only [List.filterMap_cons, hm]
        exact hsub.cons _

/-- C7 counterexample: the `src/hyperion` `_get_relevant_experts` performs no
re-sort — for required domains `[programming, mathematics]` it returns the
mapping-ordered list although the mathematics expert scores strictly higher,
so the multi-candidate list is not in descending score order as claimed. -/
theorem c7_counterexample :
    get_relevant_experts_hyp domain_mapping "mathstral:7b" taskPM =
      ["codegemma:2b", "mathstral:7b"] ∧
    scoreNC (expertsHyp "codegemma:2b") < scoreNC (expertsHyp "mathstral:7b") := by
  have h1 : expertsHyp "codegemma:2b" = codegemmaHyp := rfl
  have h2 : expertsHyp "mathstral:7b" = mathstralHyp := rfl
  constructor
  · decide
  · rw [h1, h2]
    norm_num [scoreNC, codegemmaHyp, mathstralHyp, mathstralNC]

/-- C7 (amended): in both `_get_relevant_experts` variants the candidate list
built from the domain mapping preserves required-domain order (it is a
sublist of the domain-wise lookups) and has no duplicates, and an empty
resolution falls back to a registered expert; only the `Nueva carpeta`
variant re-sorts a multi-candidate list, stably and descending by
`success_rate × specialization_score × availability × (1 − fatigue/max_load_capacity)` —
the `src/hyperion` variant returns the mapping-ordered list unsorted. -/
theorem c7_amended (mapping : List (String × String)) (experts : String → Expert)
    (fallback_id : String) (task : Task) :
    (mappedCandidates mapping task.required_domains).Nodup ∧
    List.Sublist (mappedCandidates mapping task.required_domains)
      (task.required_domains.filterMap (fun d => mapping.lookup d)) ∧
    (mappedCandidates mapping task.required_domains = [] →
      get_relevant_experts_nc mapping experts fallback_id task = [fallback_id] ∧
      get_relevant_experts_hyp mapping fallback_id task = [fallback_id]) ∧
    (mappedCandidates mapping task.required_domains ≠ [] →
      get_relevant_experts_hyp mapping fallback_id task =
        mappedCandidates mapping task.required_domains) ∧
    (1 < (mappedCandidates mapping task.required_domains).length →
      get_relevant_experts_nc mapping experts fallback_id task =
        (((mappedCandidates mapping task.required_domains).map
          (fun exp_id => (exp_id, scoreNC (experts exp_id)))).insertionSort scoreRel).map
          Prod.fst ∧
      (get_relevant_experts_nc mapping experts fallback_id task).Perm
        (mappedCandidates mapping task.required_domains) ∧
      List.Sorted scoreRel (((mappedCandidates mapping task.required_domains).map
        (fun exp_id => (exp_id, scoreNC (experts exp_id)))).insertionSort scoreRel)) ∧
    ((mappedCandidates mapping task.required_domains).length = 1 →
      get_relevant_experts_nc mapping experts fallback_id task =
        mappedCandidates mapping task.required_domains) := by
  obtain ⟨extra, he, _, hnd, hsub⟩ := mappedGo_go mapping task.required_domains []
  have hmc : mappedCandidates mapping task.required_domains = extra := by
    simpa [mappedCandidates] using he
  refine ⟨by rw [hmc]; exact hnd, by rw [hmc]; exact hsub, ?_, ?_, ?_, ?_⟩
  · intro hempty
    constructor <;> simp [get_relevant_experts_nc, get_relevant_experts_hyp, hempty]
  · intro hne
    simp [get_relevant_experts_hyp, hne]
  · intro hlen
    have hne2 : (((mappedCandidates mapping task.required_domains).map
        (fun exp_id => (exp_id, scoreNC (experts exp_id)))).insertionSort scoreRel).map
          Prod.fst ≠ [] := by
      have hlength : ((((mappedCandidates mapping task.required_domains).map
          (fun exp_id => (exp_id, scoreNC (experts exp_id)))).insertionSort scoreRel).map
            Prod.fst).length = (mappedCandidates mapping task.required_domains).length := by
        simp [List.length_insertionSort]
      intro h
      rw [h] at hlength
      simp at hlength
      omega
    refine ⟨?_, ?_, List.sorted_insertionSort scoreRel _⟩
    · simp only [get_relevant_experts_nc, if_pos hlen, if_neg hne2]
    · have hperm := (List.perm_insertionSort scoreRel
        ((mappedCandidates mapping task.required_domains).map
          (fun exp_id => (exp_id, scoreNC (experts exp_id))))).map Prod.fst
      simp only [get_relevant_experts_nc, if_pos hlen, if_neg hne2]
      simpa [List.map_map, Function.comp_def] using hperm
  · intro hlen1
    have hnlt : ¬ 1 < (mappedCandidates mapping task.required_domains).length := by omega
    have hne : ¬ mappedCandidates mapping task.required_domains = [] := by
      intro h
      rw [h] at hlen1
      simp at hlen1
    simp [get_relevant_experts_nc, hnlt, hne]

/-- Witness for the amended C7 on the default roster, mapping and a
two-domain task. -/
theorem c7_amended_witness :
    get_relevant_experts_hyp domain_mapping "mathstral:7b" taskPM =
      mappedCandidates domain_mapping taskPM.required_domains ∧
    get_relevant_experts_nc domain_mapping expertsHyp "mathstral:7b" taskPM =
      (((mappedCandidates domain_mapping taskPM.required_domains).map
        (fun exp_id => (exp_id, scoreNC (expertsHyp exp_id)))).insertionSort scoreRel).map
        Prod.fst :=
  ⟨(c7_amended domain_mapping expertsHyp "mathstral:7b" taskPM).2.2.2.1 (by decide),
   ((c7_amended domain_mapping expertsHyp "mathstral:7b" taskPM).2.2.2.2.1 (by decide)).1⟩

lemma classifyCoreA_domains_length (det : DetectorsA) (q : String) :
    (classifyCoreA det q).domains.length = 1 := by
  simp only [classifyCoreA]
  repeat' split
  all_goals rfl

lemma lookup_entry_mem {l : List (String × ClassifyResult)} {k : String} {v : ClassifyResult}
    (h : l.lookup k = some v) : ∃ p ∈ l, p.2 = v := by
  induction l with
  | nil => simp [List.lookup] at h
  | cons p t ih =>
    obtain ⟨k0, v0⟩ := p
    rw [List.lookup] at h
    cases hbeq : (k == k0) with
    | true =>
      rw [hbeq] at h
      exact ⟨(k0, v0), List.mem_cons_self _ _, Option.some_injective _ h⟩
    | false =>
      rw [hbeq] at h
      obtain ⟨p, hp, hv⟩ := ih h
      exact ⟨p, List.mem_cons_of_mem _ hp, hv⟩

lemma classifyFastA_singleton (det : DetectorsA) (cache : List (String × ClassifyResult))
    (q : String) (h : CacheOKA cache) :
    (classifyFastA det cache q).1.domains.length = 1 ∧
    CacheOKA (classifyFastA det cache q).2 := by
  cases hl : cache.lookup (hash_query q) with
  | some r =>
    obtain ⟨p, hp, hv⟩ := lookup_entry_mem hl
    constructor
    · simp only [classifyFastA, hl]
      rw [← hv]
      exact h p hp
    · simp only [classifyFastA, hl]
      exact h
  | none =>
    constructor
    · simp only [classifyFastA, hl]
      exact classifyCoreA_domains_length det q
    · simp only [classifyFastA, hl]
      intro p hp
      rcases List.mem_append.mp hp with hin | hnew
      · exact h p hin
      · rw [List.mem_singleton.mp hnew]
        exact classifyCoreA_domains_length det q

lemma get_relevant_experts_hyp_ne_nil (mapping : List (String × String))
    (fallback_id : String) (task : Task) :
    get_relevant_experts_hyp mapping fallback_id task ≠ [] := by
  simp only [get_relevant_experts_hyp]
  split <;> simp_all

lemma select_experts_single_domain (experts : String → Expert)
    (mem : List (String × List ℚ)) (c : String) (cs : List String) (task : Task)
    (fb : String) (h1 : task.required_domains.length = 1) :
    select_experts experts mem (c :: cs) task fb = [c] := by
  simp [select_experts, h1]

/-- C9: the priority-chain classifier always returns exactly one domain (each
mutually exclusive branch, the fallback included, appends exactly one), the
cache only ever holds singleton-domain results, and consequently every
`route_query` decision driven by it selects exactly one expert and is typed
SINGLE — the multi-expert collaboration path is unreachable in that variant. -/
theorem c9_single_domain_single_expert :
    (∀ (det : DetectorsA) (q : String), (classifyCoreA det q).domains.length = 1) ∧
    (∀ (det : DetectorsA) (cache : List (String × ClassifyResult)) (q : String),
      CacheOKA cache →
      (classifyFastA det cache q).1.domains.length = 1 ∧
      CacheOKA (classifyFastA det cache q).2) ∧
    (∀ (det : DetectorsA) (cache : List (String × ClassifyResult)) (q tid : String)
        (mapping : List (String × String)) (fallback_id sel_fb : String)
        (experts : String → Expert) (mem : List (String × List ℚ)),
      CacheOKA cache →
      (select_experts experts mem
          (get_relevant_experts_hyp mapping fallback_id
            (mkRouteTask tid (classifyFastA det cache q).1 q))
          (mkRouteTask tid (classifyFastA det cache q).1 q) sel_fb).length = 1 ∧
      routingType (select_experts experts mem
          (get_relevant_experts_hyp mapping fallback_id
            (mkRouteTask tid (classifyFastA det cache q).1 q))
          (mkRouteTask tid (classifyFastA det cache q).1 q) sel_fb) = "SINGLE") := by
  refine ⟨classifyCoreA_domains_length, classifyFastA_singleton, ?_⟩
  intro det cache q tid mapping fallback_id sel_fb experts mem hok
  have hdom : (mkRouteTask tid (classifyFastA det cache q).1 q).required_domains.length = 1 :=
    (classifyFastA_singleton det cache q hok).1
  obtain ⟨c, cs, hc⟩ := List.exists_cons_of_ne_nil
    (get_relevant_experts_hyp_ne_nil mapping fallback_id
      (mkRouteTask tid (classifyFastA det cache q).1 q))
  rw [hc, select_experts_single_domain experts mem c cs _ sel_fb hdom]
  exact ⟨rfl, rfl⟩

/-- Witness for C9: the empty cache and a concrete query on the default
mapping and roster. -/
theorem c9_witness :
    (select_experts expertsHyp []
        (get_relevant_experts_hyp domain_mapping "mathstral:7b"
          (mkRouteTask "t1" (classifyFastA detNone [] "hola").1 "hola"))
        (mkRouteTask "t1" (classifyFastA detNone [] "hola").1 "hola") "mathstral:7b").length = 1 ∧
    routingType (select_experts expertsHyp []
        (get_relevant_experts_hyp domain_mapping "mathstral:7b"
          (mkRouteTask "t1" (classifyFastA detNone [] "hola").1 "hola"))
        (mkRouteTask "t1" (classifyFastA detNone [] "hola").1 "hola") "mathstral:7b") = "SINGLE" :=
  c9_single_domain_single_expert.2.2 detNone [] "hola" "t1" domain_mapping
    "mathstral:7b" "mathstral:7b" expertsHyp []
    (fun p hp => absurd hp (List.not_mem_nil p))

lemma runRoutings_totals (outcomes : List Bool) :
    ∀ s : RoutingStats,
      (outcomes.foldl recordRouting s).total_queries = s.total_queries + outcomes.length ∧
      (outcomes.foldl recordRouting s).successful_routings =
        s.successful_routings + outcomes.count true := by
  induction outcomes with
  | nil => intro s; simp
  | cons b t ih =>
    intro s
    rw [List.foldl_cons]
    obtain ⟨h1, h2⟩ := ih (recordRouting s b)
    refine ⟨by rw [h1]; simp [recordRouting]; omega, ?_⟩
    rw [h2]
    simp [recordRouting, List.count_cons]
    cases b with
    | true => simp; omega
    | false => simp

/-- C10: with no routed query the success-rate accessor returns `100.0`
(neither `0` nor an error), and with a positive number of routed queries it
returns `successful_routings / total_queries × 100` — equivalently, after a
run of `n > 0` queries, the fraction of successful ones times 100. -/
theorem c10_success_rate :
    get_success_rate (runRoutings []) = 100 ∧
    (∀ outcomes : List Bool, outcomes ≠ [] →
      get_success_rate (runRoutings outcomes) =
        ((outcomes.count true : ℚ) / (outcomes.length : ℚ)) * 100) ∧
    (∀ s : RoutingStats, 0 < s.total_queries →
      get_success_rate s = ((s.successful_routings : ℚ) / (s.total_queries : ℚ)) * 100) := by
  refine ⟨by simp [runRoutings, get_success_rate], ?_, ?_⟩
  · intro outcomes hne
    obtain ⟨h1, h2⟩ := runRoutings_totals outcomes ⟨0, 0⟩
    have hlen : outcomes.length ≠ 0 := fun h => hne (List.length_eq_zero.mp h)
    simp only [runRoutings] at h1 h2 ⊢
    simp [get_success_rate, h1, h2, hlen]
  · intro s hpos
    have : s.total_queries ≠ 0 := by omega
    simp [get_success_rate, this]

/-- Witness for C10 after two routed queries, one successful. -/
theorem c10_witness :
    get_success_rate (runRoutings [true, false]) =
      ((([true, false] : List Bool).count true : ℚ) /
        (([true, false] : List Bool).length : ℚ)) * 100 :=
  c10_success_rate.2.1 [true, false] (by simp)

end AlphaHyperion

